import Mathlib

/-!
Shallow embedding of the SentryFlow firmware core (src/firmware), covering
the CRC32 primitive (sf_crc32.c), the frame codec (sf_protocol.c), the
routing table (routing_table.c), and the per-connection dispatch loop
(platform_linux.c).

Modelling conventions:
* Byte buffers are `List Nat`, one element per byte of the C array.
* Fixed-width machine integers are `Nat`; wherever the C code narrows a
  value through a fixed-width store or cast, the model applies the
  corresponding `% 2^w`.
* The build host is little-endian x86-64 (the source's
  `__BYTE_ORDER__ == __ORDER_LITTLE_ENDIAN__` branch), so a
  `memcpy`-then-`ntohl` of four buffer bytes b0,b1,b2,b3 yields the value
  b0*2^24 + b1*2^16 + b2*2^8 + b3, and `htonl`-then-`memcpy` stores a
  32-bit value as its four big-endian bytes; the model writes those
  compositions directly.
* Functions that report failure through a negative `int` return value and
  leave outputs untouched are modelled with `Option`.
-/

namespace SentryFlow

/-! ## CRC32 (src/firmware/src/sf_crc32.c) -/

/-- One inner iteration of the bit loop of `sf_crc32`:
`mask = -(crc & 1)` as a `uint32_t` is `0xFFFFFFFF` when `crc` is odd and
`0` when it is even, and `crc = (crc >> 1) ^ (0xEDB88320 & mask)`. -/
def crc_step (crc : Nat) : Nat :=
  let mask : Nat := if crc % 2 == 1 then 0xFFFFFFFF else 0
  (crc / 2) ^^^ (0xEDB88320 &&& mask)

/-- The 8-round bit loop of `sf_crc32` (`for (bit = 0; bit < 8; ++bit)`). -/
def crc_bits : Nat → Nat → Nat
  | 0, crc => crc
  | n + 1, crc => crc_bits n (crc_step crc)

/-- `sf_crc32` from sf_crc32.c: init `0xFFFFFFFF`, per byte
`crc ^= p[i]` then 8 rounds of `crc_step`, final complement
(`~crc` on `uint32_t` is `crc ^^^ 0xFFFFFFFF`). -/
def sf_crc32 (data : List Nat) : Nat :=
  (data.foldl (fun crc b => crc_bits 8 (crc ^^^ b % 256)) 0xFFFFFFFF) ^^^ 0xFFFFFFFF

/-! ## Frame codec (src/firmware/src/sf_protocol.c) -/

/-- `sf_frame_t` from sf_protocol.h. -/
structure sf_frame where
  version : Nat
  type : Nat
  flags : Nat
  seq : Nat
  payload_len : Nat
  payload_crc32 : Nat
  deriving DecidableEq, Repr

/-- Big-endian bytes of a 16-bit value, as written by `htons` + `memcpy`. -/
def be16 (n : Nat) : List Nat := [n / 2^8 % 256, n % 256]

/-- Big-endian bytes of a 32-bit value, as written by `htonl` + `memcpy`. -/
def be32 (n : Nat) : List Nat := [n / 2^24 % 256, n / 2^16 % 256, n / 2^8 % 256, n % 256]

/-- `SF_PROTO_MAGIC` (sf_protocol.h). -/
def SF_PROTO_MAGIC : Nat := 0x53464C57

/-- `SF_PROTO_HEADER_LEN` (sf_protocol.h). -/
def SF_PROTO_HEADER_LEN : Nat := 20

/-- `sf_proto_encode` from sf_protocol.c. The output buffer is modelled as
the list of bytes written (`*out_len` is its length); `none` models the
`return -1` paths for an oversize payload or insufficient capacity. -/
def sf_proto_encode (out_cap : Nat) (frame : sf_frame) (payload : List Nat) :
    Option (List Nat) :=
  if payload.length > 1024 * 1024 then none
  else if out_cap < SF_PROTO_HEADER_LEN + payload.length then none
  else some (be32 SF_PROTO_MAGIC ++ [frame.version % 256, frame.type % 256] ++
    be16 (frame.flags % 2^16) ++ be32 (frame.seq % 2^32) ++
    be32 (payload.length % 2^32) ++ be32 (sf_crc32 payload) ++ payload)

/-- Receive buffer contents (`sf_rxbuf_t.data[0..len)`); capacity 8192. -/
def SF_RXBUF_CAP : Nat := 8192

/-- `sf_rxbuf_append` from sf_protocol.c: fails (returns -1) when the
appended data would exceed the 8192-byte capacity. -/
def sf_rxbuf_append (rx : List Nat) (d : List Nat) : Option (List Nat) :=
  if rx.length + d.length > SF_RXBUF_CAP then none else some (rx ++ d)

/-- `rb_consume` from sf_protocol.c: drop `n` bytes from the front
(`memmove` of the tail), clearing the buffer when `n ≥ len`. -/
def rb_consume (rx : List Nat) (n : Nat) : List Nat :=
  if n ≥ rx.length then [] else rx.drop n

/-- Result discriminator of `sf_proto_try_decode`: `needMore` is the
`return 0` paths, `parseError` the `return -1` paths past the argument
checks, `ok` the `return 1` path carrying the decoded header and the bytes
copied to `payload_out`. -/
inductive DecodeStatus where
  | needMore
  | parseError
  | ok (f : sf_frame) (payload : List Nat)
  deriving DecidableEq, Repr

/-- `sf_proto_try_decode` from sf_protocol.c. Returns the status together
with the receive buffer as left by the call (consumed only on success).
The 20-way destructuring is the `rb->len < SF_PROTO_HEADER_LEN` check
followed by the fixed-offset header reads (`memcpy` + `ntohl`/`ntohs` on
the little-endian host give big-endian reads). -/
def sf_proto_try_decode (rb : List Nat) (payload_cap : Nat) :
    DecodeStatus × List Nat :=
  match rb with
  | b0 :: b1 :: b2 :: b3 :: b4 :: b5 :: b6 :: b7 :: b8 :: b9 :: b10 :: b11 ::
    b12 :: b13 :: b14 :: b15 :: b16 :: b17 :: b18 :: b19 :: rest =>
    let magic := b0 * 2^24 + b1 * 2^16 + b2 * 2^8 + b3
    if magic ≠ SF_PROTO_MAGIC then (.parseError, rb)
    else
      let f : sf_frame :=
        { version := b4
          type := b5
          flags := b6 * 2^8 + b7
          seq := b8 * 2^24 + b9 * 2^16 + b10 * 2^8 + b11
          payload_len := b12 * 2^24 + b13 * 2^16 + b14 * 2^8 + b15
          payload_crc32 := b16 * 2^24 + b17 * 2^16 + b18 * 2^8 + b19 }
      if f.version ≠ 1 then (.parseError, rb)
      else if f.payload_len > SF_RXBUF_CAP - SF_PROTO_HEADER_LEN then (.parseError, rb)
      else if rb.length < SF_PROTO_HEADER_LEN + f.payload_len then (.needMore, rb)
      else if f.payload_len > payload_cap then (.parseError, rb)
      else
        let payload := rest.take f.payload_len
        if sf_crc32 payload ≠ f.payload_crc32 then (.parseError, rb)
        else (.ok f payload, rb_consume rb (SF_PROTO_HEADER_LEN + f.payload_len))
  | _ => (.needMore, rb)

/-! ## Routing table (src/firmware/src/routing_table.c) -/

/-- `sf_route_entry_t` from routing_table.h. The `_be` fields hold the
`uint32_t` value of four network-order bytes as read on the little-endian
host (low byte = first wire byte). -/
structure sf_route_entry where
  prefix_be : Nat
  mask_bits : Nat
  metric : Nat
  next_hop_be : Nat
  last_updated_ms : Nat
  deriving DecidableEq, Repr

/-- `SF_ROUTE_TABLE_MAX` (routing_table.h). -/
def SF_ROUTE_TABLE_MAX : Nat := 256

/-- `mask_from_bits` from routing_table.c (host-order mask). The
`0xFFFFFFFF << (32 - bits)` is a `uint32_t` shift, hence the `% 2^32`. -/
def mask_from_bits (bits : Nat) : Nat :=
  if bits == 0 then 0
  else if bits ≥ 32 then 0xFFFFFFFF
  else 0xFFFFFFFF * 2^(32 - bits) % 2^32

/-- 32-bit byte swap: `htonl`/`ntohl` on the little-endian host. -/
def bswap32 (x : Nat) : Nat :=
  (x % 256) * 2^24 + (x / 2^8 % 256) * 2^16 + (x / 2^16 % 256) * 2^8 + (x / 2^24 % 256)

/-- The raw identity test used by `sf_route_table_upsert` (routing_table.c
line 26) and `sf_route_table_remove`: equality of the stored `prefix_be`
and `mask_bits`, with no masking. -/
def entry_key_eq (a : sf_route_entry) (e : sf_route_entry) : Bool :=
  a.prefix_be == e.prefix_be && a.mask_bits == e.mask_bits

/-- The scan-and-replace loop of `sf_route_table_upsert`: replace the
first entry whose `(prefix_be, mask_bits)` equal the new entry's, `none`
when no entry matches. -/
def upsert_replace (rt : List sf_route_entry) (e : sf_route_entry) :
    Option (List sf_route_entry) :=
  match rt with
  | [] => none
  | x :: xs =>
    if entry_key_eq x e then some (e :: xs)
    else (upsert_replace xs e).map (x :: ·)

/-- `sf_route_table_upsert` from routing_table.c: reject `mask_bits > 32`;
replace in place on a raw `(prefix_be, mask_bits)` match; otherwise append
when below `SF_ROUTE_TABLE_MAX`. `none` models the `return -1` paths
(table unmodified). -/
def sf_route_table_upsert (rt : List sf_route_entry) (e : sf_route_entry) :
    Option (List sf_route_entry) :=
  if e.mask_bits > 32 then none
  else
    match upsert_replace rt e with
    | some rt' => some rt'
    | none => if rt.length ≥ SF_ROUTE_TABLE_MAX then none else some (rt ++ [e])

/-- The match test of `sf_route_table_lookup` (routing_table.c line 59-60):
`mask = htonl(mask_from_bits(e.mask_bits))` and
`(ip & mask) == (e.prefix_be & mask)`. -/
def route_match (ip_be : Nat) (e : sf_route_entry) : Bool :=
  let mask := bswap32 (mask_from_bits e.mask_bits)
  (ip_be &&& mask) == (e.prefix_be &&& mask)

/-- The best-so-far replacement test of the lookup scan (routing_table.c
lines 65-68): a freshly scanned matching entry `e` displaces the current
best `b` exactly when `e.mask_bits > b.mask_bits`, or the mask bits tie
and `e.metric < b.metric`. -/
def lookup_better (e b : sf_route_entry) : Bool :=
  e.mask_bits > b.mask_bits || (e.mask_bits == b.mask_bits && e.metric < b.metric)

/-- The scan loop of `sf_route_table_lookup`, threading the
`found/best` accumulator (`none` = `found == 0`). -/
def lookup_scan (rt : List sf_route_entry) (ip_be : Nat)
    (acc : Option sf_route_entry) : Option sf_route_entry :=
  match rt with
  | [] => acc
  | e :: rest =>
    if route_match ip_be e then
      match acc with
      | none => lookup_scan rest ip_be (some e)
      | some best =>
        if lookup_better e best then lookup_scan rest ip_be (some e)
        else lookup_scan rest ip_be (some best)
    else lookup_scan rest ip_be acc

/-- `sf_route_table_lookup` from routing_table.c; `none` models the
`return -1` not-found paths (including the empty-table early return,
which coincides with an empty scan). -/
def sf_route_table_lookup (rt : List sf_route_entry) (ip_be : Nat) :
    Option sf_route_entry :=
  lookup_scan rt ip_be none

/-! ## Dispatcher and connection loop (src/firmware/src/platform_linux.c)

Floating-point telemetry (`last_latency_ms`, `avg_latency_ms` and their
`* 1000.0` casts in the GET_STATS branch) is outside the shallow
embedding; the already-converted `uint32_t` microsecond values and the
HAL uptime are taken as inputs of the dispatch function. -/

/-- Message type codes from sf_commands.h. -/
def SF_MSG_PING : Nat := 1
def SF_MSG_PONG : Nat := 2
def SF_MSG_ECHO : Nat := 3
def SF_MSG_ECHO_REPLY : Nat := 4
def SF_MSG_GET_STATS : Nat := 5
def SF_MSG_STATS_REPLY : Nat := 6
def SF_MSG_ROUTE_UPDATE : Nat := 7
def SF_MSG_ROUTE_ACK : Nat := 8
def SF_MSG_ROUTE_LOOKUP : Nat := 9
def SF_MSG_ROUTE_REPLY : Nat := 10
def SF_MSG_ERROR : Nat := 255

/-- The integer fields of `sf_request_stats_t` (`g_stats`). -/
structure g_stats_t where
  total_requests : Nat
  bad_frames : Nat
  routes_installed : Nat
  deriving DecidableEq, Repr

/-- Big-endian bytes of a 64-bit value (`htonll_u64` + `memcpy`). -/
def be64 (n : Nat) : List Nat :=
  [n / 2^56 % 256, n / 2^48 % 256, n / 2^40 % 256, n / 2^32 % 256,
   n / 2^24 % 256, n / 2^16 % 256, n / 2^8 % 256, n % 256]

/-- The bytes of a UTF-8 string constant in the dispatcher. -/
def str_bytes (s : String) : List Nat := s.toUTF8.toList.map (fun b => b.toNat)

/-- Little-endian read of a `uint32_t` via `memcpy` from the first four
buffer bytes (used for `ip_be` and the `_be` record fields, which are
kept in network byte order: no `ntohl`). -/
def le32_at (p : List Nat) : Nat :=
  match p with
  | b0 :: b1 :: b2 :: b3 :: _ => b0 + b1 * 2^8 + b2 * 2^16 + b3 * 2^24
  | _ => 0

/-- The four bytes written by `memcpy` of a `_be`-held `uint32_t` back to
the wire (inverse of `le32_at` on byte values). -/
def le32_bytes (v : Nat) : List Nat :=
  [v % 256, v / 2^8 % 256, v / 2^16 % 256, v / 2^24 % 256]

/-- The 16-byte-record loop of the `SF_MSG_ROUTE_UPDATE` branch of
`handle_frame` (`while (off + 16 <= payload_len)`), returning the updated
table together with `applied` and the `routes_installed` increments
(which equal `applied`). Record layout: `prefix` 4B network order,
`mask_bits` u8, 1 reserved byte, `metric` u16 big-endian (`ntohs` of the
copied bytes), `next_hop` 4B network order. -/
def route_update_loop (rt : List sf_route_entry) (now_ms32 : Nat)
    (p : List Nat) (applied : Nat) : List sf_route_entry × Nat :=
  match p with
  | r0 :: r1 :: r2 :: r3 :: r4 :: _r5 :: r6 :: r7 :: r8 :: r9 :: r10 :: r11 ::
    _r12 :: _r13 :: _r14 :: _r15 :: rest =>
    let e : sf_route_entry :=
      { prefix_be := r0 + r1 * 2^8 + r2 * 2^16 + r3 * 2^24
        mask_bits := r4 % 256
        metric := r6 * 2^8 + r7
        next_hop_be := r8 + r9 * 2^8 + r10 * 2^16 + r11 * 2^24
        last_updated_ms := now_ms32 }
    match sf_route_table_upsert rt e with
    | some rt' => route_update_loop rt' now_ms32 rest (applied + 1)
    | none => route_update_loop rt now_ms32 rest applied
  | _ => (rt, applied)

/-- The reply payload built by the `SF_MSG_ROUTE_LOOKUP` branch of
`handle_frame` for a given lookup result: `mask_bits` u8, a zero byte,
`metric` big-endian u16, `next_hop` 4 network-order bytes; on no match
`mask_bits = 0`, `metric = 0xFFFF`, `next_hop = 0`. -/
def route_reply_payload : Option sf_route_entry → List Nat
  | none => [0, 0] ++ be16 0xFFFF ++ le32_bytes 0
  | some best => [best.mask_bits % 256, 0] ++ be16 (best.metric % 2^16) ++
      le32_bytes (best.next_hop_be % 2^32)

/-- The pure dispatch mapping of `handle_frame` (platform_linux.c lines
133-230): from the request type and payload, the routing table, the
counters and the externally supplied telemetry words, to the reply
`(out_type, out_payload)` plus the updated table and counters. The final
`queue_response` call is modelled separately. -/
def handle_frame_out (g : g_stats_t) (uptime_ms last_us avg_us now_ms32 : Nat)
    (rt : List sf_route_entry) (ftype : Nat) (payload : List Nat) :
    (Nat × List Nat) × List sf_route_entry × g_stats_t :=
  if ftype = SF_MSG_PING then
    ((SF_MSG_PONG, payload.take 2048), rt, g)
  else if ftype = SF_MSG_ECHO then
    ((SF_MSG_ECHO_REPLY, payload.take 2048), rt, g)
  else if ftype = SF_MSG_GET_STATS then
    ((SF_MSG_STATS_REPLY,
      be64 (g.total_requests % 2^64) ++ be64 (g.bad_frames % 2^64) ++
      be64 (g.routes_installed % 2^64) ++ be64 (uptime_ms % 2^64) ++
      be32 (last_us % 2^32) ++ be32 (avg_us % 2^32)), rt, g)
  else if ftype = SF_MSG_ROUTE_UPDATE then
    let (rt', applied) := route_update_loop rt now_ms32 payload 0
    ((SF_MSG_ROUTE_ACK, be32 (applied % 2^32)), rt',
      { g with routes_installed := g.routes_installed + applied })
  else if ftype = SF_MSG_ROUTE_LOOKUP then
    if payload.length < 4 then
      ((SF_MSG_ERROR, str_bytes "bad payload"), rt, g)
    else
      ((SF_MSG_ROUTE_REPLY,
        route_reply_payload (sf_route_table_lookup rt (le32_at payload))), rt, g)
  else
    ((SF_MSG_ERROR, str_bytes "unknown message type"), rt, g)

/-- Per-connection state (`sf_conn_t`): receive buffer contents plus the
transmit fill and drain offsets (the transmit bytes themselves do not
influence control flow and are omitted). -/
structure sf_conn where
  rx : List Nat
  tx_len : Nat
  tx_off : Nat
  deriving DecidableEq, Repr

/-- `queue_response` from platform_linux.c: fails when a reply is already
pending (`tx_len != 0`) or when encoding fails; otherwise stores the
encoded frame length as the new `tx_len` with `tx_off = 0`. -/
def queue_response (c : sf_conn) (ty : Nat) (seq : Nat) (payload : List Nat) :
    Option sf_conn :=
  if c.tx_len ≠ 0 then none
  else
    match sf_proto_encode 8192
        { version := 1, type := ty, flags := 0, seq := seq,
          payload_len := 0, payload_crc32 := 0 } payload with
    | none => none
    | some w => some { c with tx_len := w.length, tx_off := 0 }

/-- `handle_frame` from platform_linux.c: dispatch then `queue_response`.
`none` in the first component models the nonzero return that makes
`handle_readable` close the connection; the table and counters updated by
the dispatch body are kept either way (they are process globals). -/
def handle_frame (g : g_stats_t) (uptime_ms last_us avg_us now_ms32 : Nat)
    (rt : List sf_route_entry) (c : sf_conn) (f : sf_frame)
    (payload : List Nat) : Option sf_conn × List sf_route_entry × g_stats_t :=
  let r := handle_frame_out g uptime_ms last_us avg_us now_ms32 rt f.type payload
  (queue_response c r.1.1 f.seq r.1.2, r.2)

/-- One `recv` outcome seen by `handle_readable`: peer close (`0`),
a hard error, `EAGAIN`/`EWOULDBLOCK`, or received bytes. -/
inductive RecvEv where
  | closed
  | rerr
  | wouldblock
  | data (bytes : List Nat)
  deriving DecidableEq, Repr

/-- Outcome of the inner decode-dispatch loop of `handle_readable`. -/
inductive InnerRes where
  | conn_closed (rt : List sf_route_entry) (g : g_stats_t)
  | continue_outer (c : sf_conn) (rt : List sf_route_entry) (g : g_stats_t)
  deriving Repr

/-- The inner `for (;;)` decode-dispatch loop of `handle_readable`
(platform_linux.c lines 263-295). `fuel` only bounds the iteration count
(each successful decode consumes at least 20 buffered bytes, so any fuel
above `rx.length` is enough); `none` marks exhausted fuel and is never
reached from the inputs used below. Decode errors increment `bad_frames`
and close; a failed `handle_frame` closes; after a dispatch the loop
breaks when `tx_len != 0` (the reply just queued). The
`update_epoll_interest` call only talks to epoll and is dropped. -/
def rx_dispatch_loop (fuel : Nat) (g : g_stats_t)
    (uptime_ms last_us avg_us now_ms32 : Nat) (c : sf_conn)
    (rt : List sf_route_entry) : Option InnerRes :=
  match fuel with
  | 0 => none
  | fuel + 1 =>
    match sf_proto_try_decode c.rx 4096 with
    | (.needMore, _) => some (.continue_outer c rt g)
    | (.parseError, _) =>
      some (.conn_closed rt { g with bad_frames := g.bad_frames + 1 })
    | (.ok f payload, rx') =>
      let c1 := { c with rx := rx' }
      match handle_frame g uptime_ms last_us avg_us now_ms32 rt c1 f payload with
      | (none, rt', g') => some (.conn_closed rt' g')
      | (some c2, rt', g') =>
        let g2 := { g' with total_requests := g'.total_requests + 1 }
        if c2.tx_len ≠ 0 then some (.continue_outer c2 rt' g2)
        else rx_dispatch_loop fuel g2 uptime_ms last_us avg_us now_ms32 c2 rt'

/-- `handle_readable` from platform_linux.c (lines 244-297), driven by a
script of `recv` outcomes (an exhausted script behaves as
`EAGAIN`: break and keep the connection). The first result component is
`none` when the connection was closed (`close_conn`), otherwise the
surviving connection state. The outer `Option` is the fuel artifact of
the inner loop. -/
def handle_readable (script : List RecvEv) (g : g_stats_t)
    (uptime_ms last_us avg_us now_ms32 : Nat) (c : sf_conn)
    (rt : List sf_route_entry) :
    Option (Option sf_conn × List sf_route_entry × g_stats_t) :=
  match script with
  | [] => some (some c, rt, g)
  | ev :: rest =>
    match ev with
    | .closed => some (none, rt, g)
    | .rerr => some (none, rt, g)
    | .wouldblock => some (some c, rt, g)
    | .data bytes =>
      match sf_rxbuf_append c.rx bytes with
      | none => some (none, rt, g)
      | some rx' =>
        match rx_dispatch_loop (rx'.length + 1) g uptime_ms last_us avg_us
            now_ms32 { c with rx := rx' } rt with
        | none => none
        | some (.conn_closed rt' g') => some (none, rt', g')
        | some (.continue_outer c' rt' g') =>
          handle_readable rest g' uptime_ms last_us avg_us now_ms32 c' rt'

/-! ## Reference definitions written from the spec's words -/

/-- Reference bit update of the reflected CRC-32/IEEE described in the
spec (§4.1): shift right one bit, XOR the polynomial `0xEDB88320` when
the dropped bit was set. -/
def crc32_ref_step (crc : Nat) : Nat :=
  if crc % 2 == 1 then (crc / 2) ^^^ 0xEDB88320 else crc / 2

/-- Eight reference bit updates (one input byte). -/
def crc32_ref_bits : Nat → Nat → Nat
  | 0, crc => crc
  | n + 1, crc => crc32_ref_bits n (crc32_ref_step crc)

/-- Reference reflected CRC-32/IEEE from the spec's parameters:
polynomial `0xEDB88320`, init `0xFFFFFFFF`, final XOR `0xFFFFFFFF`,
input and output reflected (LSB-first bit processing). -/
def crc32_ref (data : List Nat) : Nat :=
  (data.foldl (fun crc b => crc32_ref_bits 8 (crc ^^^ b % 256)) 0xFFFFFFFF) ^^^ 0xFFFFFFFF

/-! ## Supporting lemmas -/

theorem crc_step_eq_ref (crc : Nat) : crc_step crc = crc32_ref_step crc := by
  unfold crc_step crc32_ref_step
  rcases Nat.mod_two_eq_zero_or_one crc with h | h
  · simp [h]
  · simp only [h, beq_self_eq_true, if_true]
    rw [show (0xEDB88320 &&& 0xFFFFFFFF : Nat) = 0xEDB88320 from by decide]

theorem crc_bits_eq_ref (n crc : Nat) : crc_bits n crc = crc32_ref_bits n crc := by
  induction n generalizing crc with
  | zero => rfl
  | succ n ih => rw [crc_bits, crc32_ref_bits, crc_step_eq_ref, ih]

theorem crc_step_lt (crc : Nat) (h : crc < 2^32) : crc_step crc < 2^32 := by
  unfold crc_step
  have h1 : crc / 2 < 2^32 := lt_of_le_of_lt (Nat.div_le_self _ _) h
  have h2 : (0xEDB88320 &&& (if crc % 2 == 1 then 0xFFFFFFFF else 0)) < 2^32 := by
    split <;> decide
  exact Nat.xor_lt_two_pow h1 h2

theorem crc_bits_lt (n crc : Nat) (h : crc < 2^32) : crc_bits n crc < 2^32 := by
  induction n generalizing crc with
  | zero => exact h
  | succ n ih => exact ih _ (crc_step_lt _ h)

theorem sf_crc32_lt (data : List Nat) : sf_crc32 data < 2^32 := by
  unfold sf_crc32
  have : ∀ (l : List Nat) (acc : Nat), acc < 2^32 →
      l.foldl (fun crc b => crc_bits 8 (crc ^^^ b % 256)) acc < 2^32 := by
    intro l
    induction l with
    | nil => intro acc h; exact h
    | cons b l ih =>
      intro acc h
      exact ih _ (crc_bits_lt 8 _ (Nat.xor_lt_two_pow h
        (lt_of_lt_of_le (Nat.mod_lt _ (by norm_num)) (by norm_num))))
  exact Nat.xor_lt_two_pow (this _ _ (by norm_num)) (by norm_num)

theorem be32_recompose (n : Nat) (h : n < 2^32) :
    n / 2^24 % 256 * 2^24 + n / 2^16 % 256 * 2^16 + n / 2^8 % 256 * 2^8 + n % 256 = n := by
  omega

theorem be16_recompose (n : Nat) (h : n < 2^16) :
    n / 2^8 % 256 * 2^8 + n % 256 = n := by
  omega

/-! ## Claim theorems -/

/-- C9: `sf_crc32` computes the reflected CRC-32/IEEE checksum — it
agrees with the reference function built from the spec's parameters on
every byte sequence — and `sf_crc32` of the empty sequence is 0. -/
theorem C9_crc32_matches_reference :
    (∀ data : List Nat, sf_crc32 data = crc32_ref data) ∧ sf_crc32 [] = 0 := by
  constructor
  · intro data
    unfold sf_crc32 crc32_ref
    have : ∀ (l : List Nat) (acc : Nat),
        l.foldl (fun crc b => crc_bits 8 (crc ^^^ b % 256)) acc =
        l.foldl (fun crc b => crc32_ref_bits 8 (crc ^^^ b % 256)) acc := by
      intro l
      induction l with
      | nil => intro acc; rfl
      | cons b l ih =>
        intro acc
        simp only [List.foldl_cons]
        rw [crc_bits_eq_ref]
        exact ih _
    rw [this]
  · decide

/-- C6: `sf_proto_encode` fails exactly when the payload exceeds 1 MiB or
the output capacity is below `20 + payload_len`; on success the wire
bytes are the big-endian magic, version, type, big-endian flags, seq,
payload length and payload CRC32, followed by the payload verbatim, with
total length exactly `20 + payload_len`. -/
theorem C6_encode_shape (out_cap : Nat) (frame : sf_frame) (payload : List Nat) :
    (sf_proto_encode out_cap frame payload = none ↔
      payload.length > 1024 * 1024 ∨ out_cap < 20 + payload.length) ∧
    (∀ w, sf_proto_encode out_cap frame payload = some w →
      w.length = 20 + payload.length ∧
      w = be32 0x53464C57 ++ [frame.version % 256, frame.type % 256] ++
        be16 (frame.flags % 2^16) ++ be32 (frame.seq % 2^32) ++
        be32 (payload.length % 2^32) ++ be32 (sf_crc32 payload) ++ payload) := by
  unfold sf_proto_encode
  constructor
  · split
    · simp; omega
    · split
      · simp [SF_PROTO_HEADER_LEN] at *; omega
      · simp [SF_PROTO_HEADER_LEN] at *; omega
  · intro w hw
    split at hw
    · exact absurd hw (by simp)
    · split at hw
      · exact absurd hw (by simp)
      · refine ⟨?_, by simpa [SF_PROTO_MAGIC] using (Option.some.injEq _ _ ▸ hw).symm⟩
        have := (Option.some_inj.mp hw).symm
        subst this
        simp [be32, be16]
        omega

/-- Witness for C6 at `version=1, type=1, flags=0, seq=0, payload=[5,6]`
with capacity 64. -/
theorem C6_encode_shape_witness :
    (be32 SF_PROTO_MAGIC ++ [1 % 256, 1 % 256] ++ be16 (0 % 2^16) ++ be32 (0 % 2^32) ++
        be32 ([5, 6].length % 2^32) ++ be32 (sf_crc32 [5, 6]) ++ [5, 6]).length =
      20 + [5, 6].length ∧
    (be32 SF_PROTO_MAGIC ++ [1 % 256, 1 % 256] ++ be16 (0 % 2^16) ++ be32 (0 % 2^32) ++
        be32 ([5, 6].length % 2^32) ++ be32 (sf_crc32 [5, 6]) ++ [5, 6]) =
      be32 0x53464C57 ++ [1 % 256, 1 % 256] ++ be16 (0 % 2^16) ++ be32 (0 % 2^32) ++
        be32 ([5, 6].length % 2^32) ++ be32 (sf_crc32 [5, 6]) ++ [5, 6] :=
  (C6_encode_shape 64 ⟨1, 1, 0, 0, 0, 0⟩ [5, 6]).2 _ rfl

/-- C1: encoding a version-1 frame with a payload of at most 4096 bytes
into an empty receive buffer and then streaming-decoding it yields a
successful decode with identical header fields and payload, consuming all
`20 + len(payload)` bytes (the buffer is left empty). -/
theorem C1_encode_decode_roundtrip (ty fl sq out_cap cap : Nat) (payload : List Nat)
    (hty : ty < 256) (hfl : fl < 2^16) (hsq : sq < 2^32)
    (hlen : payload.length ≤ 4096) (hout : 20 + payload.length ≤ out_cap)
    (hcap : payload.length ≤ cap) :
    ∃ w, sf_proto_encode out_cap
        { version := 1, type := ty, flags := fl, seq := sq,
          payload_len := payload.length, payload_crc32 := sf_crc32 payload }
        payload = some w ∧
      sf_rxbuf_append [] w = some w ∧
      sf_proto_try_decode w cap =
        (.ok { version := 1, type := ty, flags := fl, seq := sq,
               payload_len := payload.length, payload_crc32 := sf_crc32 payload }
          payload, []) := by
  have hlen32 : payload.length % 2^32 = payload.length :=
    Nat.mod_eq_of_lt (by omega)
  have hcrc : sf_crc32 payload < 2^32 := sf_crc32_lt payload
  have henc : sf_proto_encode out_cap
      { version := 1, type := ty, flags := fl, seq := sq,
        payload_len := payload.length, payload_crc32 := sf_crc32 payload }
      payload = some (be32 SF_PROTO_MAGIC ++ [1 % 256, ty % 256] ++
        be16 (fl % 2^16) ++ be32 (sq % 2^32) ++
        be32 (payload.length % 2^32) ++ be32 (sf_crc32 payload) ++ payload) := by
    unfold sf_proto_encode
    rw [if_neg (by omega), if_neg (by simp [SF_PROTO_HEADER_LEN]; omega)]
  refine ⟨_, henc, ?_, ?_⟩
  · unfold sf_rxbuf_append
    rw [if_neg (by simp [be32, be16, SF_RXBUF_CAP]; omega)]
    simp
  · rw [show (1 : Nat) % 256 = 1 from by norm_num, Nat.mod_eq_of_lt hty,
      Nat.mod_eq_of_lt hfl, Nat.mod_eq_of_lt hsq, hlen32]
    simp only [be32, be16, SF_PROTO_MAGIC, SF_PROTO_HEADER_LEN, SF_RXBUF_CAP,
      List.cons_append, List.nil_append, sf_proto_try_decode]
    rw [be32_recompose 0x53464C57 (by norm_num), be16_recompose fl hfl,
      be32_recompose sq hsq, be32_recompose payload.length (by omega),
      be32_recompose (sf_crc32 payload) hcrc]
    rw [if_neg (by norm_num)]
    rw [if_neg (by norm_num), if_neg (by omega),
      if_neg (by simp only [List.length_cons]; omega),
      if_neg (by omega), List.take_length, if_neg (by exact fun h => h rfl)]
    unfold rb_consume
    rw [if_pos (by simp only [List.length_cons]; omega)]

/-- Witness for C1 at `type=1, flags=0x1234, seq=42, payload=[1,2,3]`. -/
theorem C1_encode_decode_roundtrip_witness :
    ∃ w, sf_proto_encode 64
        { version := 1, type := 1, flags := 0x1234, seq := 42,
          payload_len := [1, 2, 3].length, payload_crc32 := sf_crc32 [1, 2, 3] }
        [1, 2, 3] = some w ∧
      sf_rxbuf_append [] w = some w ∧
      sf_proto_try_decode w 4096 =
        (.ok { version := 1, type := 1, flags := 0x1234, seq := 42,
               payload_len := [1, 2, 3].length, payload_crc32 := sf_crc32 [1, 2, 3] }
          [1, 2, 3], []) :=
  C1_encode_decode_roundtrip 1 0x1234 42 64 4096 [1, 2, 3] (by norm_num)
    (by norm_num) (by norm_num) (by norm_num) (by norm_num) (by norm_num)

/-- C10: `sf_proto_try_decode` leaves the receive buffer untouched on
`NeedMore` and on `ParseError`; only a successful decode mutates it, and
then it removes exactly `20 + payload_len` bytes from the front, the
remaining bytes shifting down unchanged. -/
theorem C10_decode_buffer_mutation (rb : List Nat) (cap : Nat) :
    ((sf_proto_try_decode rb cap).1 = .needMore →
      (sf_proto_try_decode rb cap).2 = rb) ∧
    ((sf_proto_try_decode rb cap).1 = .parseError →
      (sf_proto_try_decode rb cap).2 = rb) ∧
    (∀ f p, (sf_proto_try_decode rb cap).1 = .ok f p →
      20 + f.payload_len ≤ rb.length ∧ p.length = f.payload_len ∧
      (sf_proto_try_decode rb cap).2 = rb.drop (20 + f.payload_len)) := by
  exact match rb with
  | b0 :: b1 :: b2 :: b3 :: b4 :: b5 :: b6 :: b7 :: b8 :: b9 :: b10 :: b11 ::
    b12 :: b13 :: b14 :: b15 :: b16 :: b17 :: b18 :: b19 :: rest => by
    simp only [sf_proto_try_decode, SF_PROTO_HEADER_LEN, SF_RXBUF_CAP, SF_PROTO_MAGIC]
    split_ifs with h1 h2 h3 h4 h5 h6
    case _ | _ | _ | _ | _ | _ =>
      refine ⟨?_, ?_, ?_⟩ <;> intros <;>
        first
        | rfl
        | exact (‹False›).elim
    · refine ⟨?_, ?_, fun f p h => ?_⟩
      · intro h
        exact h.elim
      · intro h
        exact h.elim
      · injection h with hf hp
        subst hf
        subst hp
        simp only [List.length_cons] at h4 ⊢
        refine ⟨by omega, ?_, ?_⟩
        · simp only [List.length_take]
          omega
        · unfold rb_consume
          split
          · exact (List.drop_eq_nil_of_le (by simp only [List.length_cons] at *; omega)).symm
          · rfl
  | [] => by exact ⟨fun _ => rfl, fun _ => rfl, fun f p h => nomatch h⟩
  | [_] => by exact ⟨fun _ => rfl, fun _ => rfl, fun f p h => nomatch h⟩
  | [_, _] => by exact ⟨fun _ => rfl, fun _ => rfl, fun f p h => nomatch h⟩
  | [_, _, _] => by exact ⟨fun _ => rfl, fun _ => rfl, fun f p h => nomatch h⟩
  | [_, _, _, _] => by exact ⟨fun _ => rfl, fun _ => rfl, fun f p h => nomatch h⟩
  | [_, _, _, _, _] => by exact ⟨fun _ => rfl, fun _ => rfl, fun f p h => nomatch h⟩
  | [_, _, _, _, _, _] => by exact ⟨fun _ => rfl, fun _ => rfl, fun f p h => nomatch h⟩
  | [_, _, _, _, _, _, _] => by exact ⟨fun _ => rfl, fun _ => rfl, fun f p h => nomatch h⟩
  | [_, _, _, _, _, _, _, _] => by
    exact ⟨fun _ => rfl, fun _ => rfl, fun f p h => nomatch h⟩
  | [_, _, _, _, _, _, _, _, _] => by
    exact ⟨fun _ => rfl, fun _ => rfl, fun f p h => nomatch h⟩
  | [_, _, _, _, _, _, _, _, _, _] => by
    exact ⟨fun _ => rfl, fun _ => rfl, fun f p h => nomatch h⟩
  | [_, _, _, _, _, _, _, _, _, _, _] => by
    exact ⟨fun _ => rfl, fun _ => rfl, fun f p h => nomatch h⟩
  | [_, _, _, _, _, _, _, _, _, _, _, _] => by
    exact ⟨fun _ => rfl, fun _ => rfl, fun f p h => nomatch h⟩
  | [_, _, _, _, _, _, _, _, _, _, _, _, _] => by
    exact ⟨fun _ => rfl, fun _ => rfl, fun f p h => nomatch h⟩
  | [_, _, _, _, _, _, _, _, _, _, _, _, _, _] => by
    exact ⟨fun _ => rfl, fun _ => rfl, fun f p h => nomatch h⟩
  | [_, _, _, _, _, _, _, _, _, _, _, _, _, _, _] => by
    exact ⟨fun _ => rfl, fun _ => rfl, fun f p h => nomatch h⟩
  | [_, _, _, _, _, _, _, _, _, _, _, _, _, _, _, _] => by
    exact ⟨fun _ => rfl, fun _ => rfl, fun f p h => nomatch h⟩
  | [_, _, _, _, _, _, _, _, _, _, _, _, _, _, _, _, _] => by
    exact ⟨fun _ => rfl, fun _ => rfl, fun f p h => nomatch h⟩
  | [_, _, _, _, _, _, _, _, _, _, _, _, _, _, _, _, _, _] => by
    exact ⟨fun _ => rfl, fun _ => rfl, fun f p h => nomatch h⟩
  | [_, _, _, _, _, _, _, _, _, _, _, _, _, _, _, _, _, _, _] => by
    exact ⟨fun _ => rfl, fun _ => rfl, fun f p h => nomatch h⟩

/-- Witness for C10 at a concrete one-frame buffer (a 20-byte empty-payload
frame followed by one extra byte). -/
theorem C10_decode_buffer_mutation_witness :
    ((sf_proto_try_decode [0x53, 0x46, 0x4C, 0x57, 1, 1, 0, 0, 0, 0, 0, 7,
        0, 0, 0, 0, 0, 0, 0, 0, 9] 4096).1 = .needMore →
      (sf_proto_try_decode [0x53, 0x46, 0x4C, 0x57, 1, 1, 0, 0, 0, 0, 0, 7,
        0, 0, 0, 0, 0, 0, 0, 0, 9] 4096).2 =
        [0x53, 0x46, 0x4C, 0x57, 1, 1, 0, 0, 0, 0, 0, 7,
         0, 0, 0, 0, 0, 0, 0, 0, 9]) ∧
    ((sf_proto_try_decode [0x53, 0x46, 0x4C, 0x57, 1, 1, 0, 0, 0, 0, 0, 7,
        0, 0, 0, 0, 0, 0, 0, 0, 9] 4096).1 = .parseError →
      (sf_proto_try_decode [0x53, 0x46, 0x4C, 0x57, 1, 1, 0, 0, 0, 0, 0, 7,
        0, 0, 0, 0, 0, 0, 0, 0, 9] 4096).2 =
        [0x53, 0x46, 0x4C, 0x57, 1, 1, 0, 0, 0, 0, 0, 7,
         0, 0, 0, 0, 0, 0, 0, 0, 9]) ∧
    (∀ f p, (sf_proto_try_decode [0x53, 0x46, 0x4C, 0x57, 1, 1, 0, 0, 0, 0, 0, 7,
        0, 0, 0, 0, 0, 0, 0, 0, 9] 4096).1 = .ok f p →
      20 + f.payload_len ≤ ([0x53, 0x46, 0x4C, 0x57, 1, 1, 0, 0, 0, 0, 0, 7,
        0, 0, 0, 0, 0, 0, 0, 0, 9] : List Nat).length ∧
      p.length = f.payload_len ∧
      (sf_proto_try_decode [0x53, 0x46, 0x4C, 0x57, 1, 1, 0, 0, 0, 0, 0, 7,
        0, 0, 0, 0, 0, 0, 0, 0, 9] 4096).2 =
        ([0x53, 0x46, 0x4C, 0x57, 1, 1, 0, 0, 0, 0, 0, 7,
          0, 0, 0, 0, 0, 0, 0, 0, 9] : List Nat).drop (20 + f.payload_len)) :=
  C10_decode_buffer_mutation
    [0x53, 0x46, 0x4C, 0x57, 1, 1, 0, 0, 0, 0, 0, 7, 0, 0, 0, 0, 0, 0, 0, 0, 9] 4096

/-- A receive buffer holding fewer than 20 bytes always decodes to
`NeedMore` with the buffer untouched. -/
theorem sf_proto_try_decode_short (rb : List Nat) (cap : Nat) (h : rb.length < 20) :
    sf_proto_try_decode rb cap = (.needMore, rb) :=
  match rb with
  | [] => rfl
  | [_] => rfl
  | [_, _] => rfl
  | [_, _, _] => rfl
  | [_, _, _, _] => rfl
  | [_, _, _, _, _] => rfl
  | [_, _, _, _, _, _] => rfl
  | [_, _, _, _, _, _, _] => rfl
  | [_, _, _, _, _, _, _, _] => rfl
  | [_, _, _, _, _, _, _, _, _] => rfl
  | [_, _, _, _, _, _, _, _, _, _] => rfl
  | [_, _, _, _, _, _, _, _, _, _, _] => rfl
  | [_, _, _, _, _, _, _, _, _, _, _, _] => rfl
  | [_, _, _, _, _, _, _, _, _, _, _, _, _] => rfl
  | [_, _, _, _, _, _, _, _, _, _, _, _, _, _] => rfl
  | [_, _, _, _, _, _, _, _, _, _, _, _, _, _, _] => rfl
  | [_, _, _, _, _, _, _, _, _, _, _, _, _, _, _, _] => rfl
  | [_, _, _, _, _, _, _, _, _, _, _, _, _, _, _, _, _] => rfl
  | [_, _, _, _, _, _, _, _, _, _, _, _, _, _, _, _, _, _] => rfl
  | [_, _, _, _, _, _, _, _, _, _, _, _, _, _, _, _, _, _, _] => rfl
  | _ :: _ :: _ :: _ :: _ :: _ :: _ :: _ :: _ :: _ :: _ :: _ ::
    _ :: _ :: _ :: _ :: _ :: _ :: _ :: _ :: _ => by
    simp only [List.length_cons] at h
    omega

/-- Counterexample to C5 as stated: a buffer holding exactly the 20-byte
header of a valid frame with `payload_len = 1`, decoded with a caller
payload capacity of 0. The header's `payload_len` exceeds the caller's
capacity, which by the claim forces `ParseError`, but the code checks the
capacity only after the `rb->len < total` completeness test and returns
`NeedMore` (buffer untouched). -/
theorem C5_capacity_needmore_counterexample :
    sf_proto_try_decode
        [0x53, 0x46, 0x4C, 0x57, 1, 1, 0, 0, 0, 0, 0, 7, 0, 0, 0, 1, 0, 0, 0, 0] 0 =
      (.needMore,
        [0x53, 0x46, 0x4C, 0x57, 1, 1, 0, 0, 0, 0, 0, 7, 0, 0, 0, 1, 0, 0, 0, 0]) ∧
    (0 * 2^24 + 0 * 2^16 + 0 * 2^8 + 1 : Nat) > 0 ∧
    DecodeStatus.needMore ≠ DecodeStatus.parseError := by
  refine ⟨by decide, by decide, by decide⟩

/-- C5 (amended): `sf_proto_try_decode` returns `NeedMore` exactly when
the buffer holds fewer than 20 bytes, or the header is valid (magic,
version, `payload_len` all acceptable) but fewer than `20 + payload_len`
bytes are buffered; and it returns `ParseError` exactly when the buffer
holds at least 20 bytes and the magic differs from `0x53464C57`, or the
version differs from 1, or `payload_len > 8192 - 20`, or the full frame
is buffered and either `payload_len` exceeds the caller's payload output
capacity or the CRC32 of the buffered payload bytes differs from the
header's `payload_crc32`. (Amendment: the capacity and CRC conditions
fire only once the full frame is buffered; before that the decoder
answers `NeedMore`.) -/
theorem C5_decode_status_characterization :
    (∀ (rb : List Nat) (cap : Nat), rb.length < 20 →
      (sf_proto_try_decode rb cap).1 = .needMore) ∧
    (∀ (cap b0 b1 b2 b3 b4 b5 b6 b7 b8 b9 b10 b11 b12 b13 b14 b15 b16 b17 b18 b19 : Nat)
      (rest : List Nat),
      ((sf_proto_try_decode (b0 :: b1 :: b2 :: b3 :: b4 :: b5 :: b6 :: b7 :: b8 :: b9 ::
          b10 :: b11 :: b12 :: b13 :: b14 :: b15 :: b16 :: b17 :: b18 :: b19 :: rest)
          cap).1 = .parseError ↔
        b0 * 2^24 + b1 * 2^16 + b2 * 2^8 + b3 ≠ 0x53464C57 ∨ b4 ≠ 1 ∨
        b12 * 2^24 + b13 * 2^16 + b14 * 2^8 + b15 > 8192 - 20 ∨
        (20 + (b12 * 2^24 + b13 * 2^16 + b14 * 2^8 + b15) ≤ 20 + rest.length ∧
          (b12 * 2^24 + b13 * 2^16 + b14 * 2^8 + b15 > cap ∨
           sf_crc32 (rest.take (b12 * 2^24 + b13 * 2^16 + b14 * 2^8 + b15)) ≠
             b16 * 2^24 + b17 * 2^16 + b18 * 2^8 + b19))) ∧
      ((sf_proto_try_decode (b0 :: b1 :: b2 :: b3 :: b4 :: b5 :: b6 :: b7 :: b8 :: b9 ::
          b10 :: b11 :: b12 :: b13 :: b14 :: b15 :: b16 :: b17 :: b18 :: b19 :: rest)
          cap).1 = .needMore ↔
        b0 * 2^24 + b1 * 2^16 + b2 * 2^8 + b3 = 0x53464C57 ∧ b4 = 1 ∧
        b12 * 2^24 + b13 * 2^16 + b14 * 2^8 + b15 ≤ 8192 - 20 ∧
        20 + rest.length < 20 + (b12 * 2^24 + b13 * 2^16 + b14 * 2^8 + b15))) := by
  constructor
  · intro rb cap h
    rw [sf_proto_try_decode_short rb cap h]
  · intro cap b0 b1 b2 b3 b4 b5 b6 b7 b8 b9 b10 b11 b12 b13 b14 b15 b16 b17 b18 b19 rest
    simp only [sf_proto_try_decode, SF_PROTO_HEADER_LEN, SF_RXBUF_CAP, SF_PROTO_MAGIC,
      List.length_cons]
    split_ifs with h1 h2 h3 h4 h5 h6
    · exact ⟨⟨fun _ => Or.inl h1, fun _ => rfl⟩,
        ⟨fun h => h.elim, fun h => absurd h.1 h1⟩⟩
    · exact ⟨⟨fun _ => Or.inr (Or.inl h2), fun _ => rfl⟩,
        ⟨fun h => h.elim, fun h => absurd h.2.1 h2⟩⟩
    · exact ⟨⟨fun _ => Or.inr (Or.inr (Or.inl h3)), fun _ => rfl⟩,
        ⟨fun h => h.elim, fun h => by omega⟩⟩
    · refine ⟨⟨fun h => h.elim, fun h => ?_⟩,
        ⟨fun _ => ⟨not_not.mp h1, not_not.mp h2, by omega, by omega⟩, fun _ => rfl⟩⟩
      rcases h with a | a | a | ⟨a, _⟩
      · exact h1 a
      · exact h2 a
      · exact h3 a
      · omega
    · refine ⟨⟨fun _ => Or.inr (Or.inr (Or.inr ⟨by omega, Or.inl h5⟩)), fun _ => rfl⟩,
        ⟨fun h => h.elim, fun h => by omega⟩⟩
    · refine ⟨⟨fun _ => Or.inr (Or.inr (Or.inr ⟨by omega, Or.inr h6⟩)), fun _ => rfl⟩,
        ⟨fun h => h.elim, fun h => by omega⟩⟩
    · refine ⟨⟨fun h => h.elim, fun h => ?_⟩, ⟨fun h => h.elim, fun h => by omega⟩⟩
      rcases h with a | a | a | ⟨_, b | b⟩
      · exact h1 a
      · exact h2 a
      · exact h3 a
      · exact h5 b
      · exact h6 b

/-- Witness for C5 (amended): a short buffer, a bad-magic 20-byte buffer,
and a complete valid empty-payload frame. -/
theorem C5_decode_status_characterization_witness :
    (sf_proto_try_decode [9, 9, 9] 4096).1 = .needMore ∧
    (sf_proto_try_decode [0, 0, 0, 0, 1, 1, 0, 0, 0, 0, 0, 7,
        0, 0, 0, 0, 0, 0, 0, 0] 4096).1 = .parseError ∧
    (sf_proto_try_decode [0x53, 0x46, 0x4C, 0x57, 1, 1, 0, 0, 0, 0, 0, 7,
        0, 0, 0, 0, 0, 0, 0, 0] 4096).1 ≠ .parseError := by
  refine ⟨C5_decode_status_characterization.1 [9, 9, 9] 4096 (by norm_num), ?_, ?_⟩
  · exact (C5_decode_status_characterization.2 4096 0 0 0 0 1 1 0 0 0 0 0 7
      0 0 0 0 0 0 0 0 []).1.mpr (Or.inl (by norm_num))
  · intro hc
    have := (C5_decode_status_characterization.2 4096 0x53 0x46 0x4C 0x57 1 1 0 0 0 0 0 7
      0 0 0 0 0 0 0 0 []).1.mp hc
    revert this
    decide

theorem upsert_replace_none (rt : List sf_route_entry) (e : sf_route_entry)
    (h : ∀ x ∈ rt, entry_key_eq x e = false) : upsert_replace rt e = none := by
  induction rt with
  | nil => rfl
  | cons x xs ih =>
    unfold upsert_replace
    rw [if_neg (by simp [h x (by simp)]), ih (fun y hy => h y (by simp [hy]))]
    rfl

theorem upsert_replace_first (l1 : List sf_route_entry) (x : sf_route_entry)
    (l2 : List sf_route_entry) (e : sf_route_entry)
    (hx : entry_key_eq x e = true) (hl1 : ∀ y ∈ l1, entry_key_eq y e = false) :
    upsert_replace (l1 ++ x :: l2) e = some (l1 ++ e :: l2) := by
  induction l1 with
  | nil =>
    unfold upsert_replace
    simp [hx]
  | cons y ys ih =>
    show upsert_replace (y :: (ys ++ x :: l2)) e = _
    simp only [upsert_replace]
    rw [if_neg (by simp [hl1 y (by simp)]), ih (fun z hz => hl1 z (by simp [hz]))]
    rfl

theorem upsert_replace_length (rt : List sf_route_entry) (e : sf_route_entry) :
    ∀ rt', upsert_replace rt e = some rt' → rt'.length = rt.length := by
  induction rt with
  | nil => intro rt' h; exact absurd h (by simp [upsert_replace])
  | cons x xs ih =>
    intro rt' h
    unfold upsert_replace at h
    split_ifs at h with hk
    · cases h
      simp
    · simp only [Option.map_eq_some'] at h
      obtain ⟨ys, hys, rfl⟩ := h
      simp [ih ys hys]

theorem upsert_replace_isSome (rt : List sf_route_entry) (e : sf_route_entry)
    (h : ∃ x ∈ rt, entry_key_eq x e = true) :
    ∃ rt', upsert_replace rt e = some rt' := by
  induction rt with
  | nil => simp at h
  | cons x xs ih =>
    unfold upsert_replace
    by_cases hk : entry_key_eq x e
    · exact ⟨e :: xs, by simp [hk]⟩
    · obtain ⟨y, hy, hkey⟩ := h
      rcases List.mem_cons.mp hy with rfl | hy'
      · exact absurd hkey (by simpa using hk)
      · obtain ⟨rt', hrt'⟩ := ih ⟨y, hy', hkey⟩
        exact ⟨x :: rt', by simp [hk, hrt']⟩

/-- Counterexample to C2 as stated: `10.0.0.1/8` (prefix bytes
`10,0,0,1`) and `10.0.0.2/8` share the masked identity
`(prefix & mask_from_bits(8), 8)`, yet `sf_route_table_upsert` appends
the second entry instead of replacing the first — the code compares the
raw `prefix_be`, not the masked prefix — so both coexist and the count
grows to 2. -/
theorem C2_masked_identity_counterexample :
    sf_route_table_upsert [⟨10 + 1 * 2^24, 8, 1, 0, 0⟩] ⟨10 + 2 * 2^24, 8, 2, 0, 0⟩ =
      some [⟨10 + 1 * 2^24, 8, 1, 0, 0⟩, ⟨10 + 2 * 2^24, 8, 2, 0, 0⟩] ∧
    ((10 + 1 * 2^24 : Nat) &&& bswap32 (mask_from_bits 8)) =
      ((10 + 2 * 2^24 : Nat) &&& bswap32 (mask_from_bits 8)) ∧
    ([⟨10 + 1 * 2^24, 8, 1, 0, 0⟩, ⟨10 + 2 * 2^24, 8, 2, 0, 0⟩] :
      List sf_route_entry).length ≠ 1 :=
  ⟨by decide, by decide, by decide⟩

/-- C2 (amended): `sf_route_table_upsert` treats two entries as the same
route exactly when they agree on the raw pair `(prefix_be, mask_bits)`
(no masking): when no stored entry has that raw identity the entry is
appended (if below capacity), and when one does, the first such entry is
replaced in place with the count unchanged. Entries whose prefixes
differ only in bits below the mask are distinct identities and can
coexist. -/
theorem C2_upsert_raw_identity (rt : List sf_route_entry) (e : sf_route_entry)
    (hm : e.mask_bits ≤ 32) :
    ((∀ x ∈ rt, entry_key_eq x e = false) →
      sf_route_table_upsert rt e =
        if rt.length < 256 then some (rt ++ [e]) else none) ∧
    (∀ l1 x l2, rt = l1 ++ x :: l2 → entry_key_eq x e = true →
      (∀ y ∈ l1, entry_key_eq y e = false) →
      sf_route_table_upsert rt e = some (l1 ++ e :: l2) ∧
      (l1 ++ e :: l2).length = rt.length) := by
  constructor
  · intro hnone
    unfold sf_route_table_upsert
    rw [if_neg (by omega), upsert_replace_none rt e hnone]
    simp only [SF_ROUTE_TABLE_MAX]
    split_ifs with hfull hlt hlt
    · omega
    · rfl
    · rfl
    · omega
  · intro l1 x l2 hrt hx hl1
    subst hrt
    unfold sf_route_table_upsert
    rw [if_neg (by omega), upsert_replace_first l1 x l2 e hx hl1]
    simp

/-- Witness for C2 (amended): a one-entry table whose entry shares the raw
identity `(5, 8)` with the upserted entry is replaced in place. -/
theorem C2_upsert_raw_identity_witness :
    sf_route_table_upsert [⟨5, 8, 0, 0, 0⟩] ⟨5, 8, 7, 7, 7⟩ =
      some ([] ++ (⟨5, 8, 7, 7, 7⟩ : sf_route_entry) :: []) ∧
    ([] ++ (⟨5, 8, 7, 7, 7⟩ : sf_route_entry) :: []).length =
      ([(⟨5, 8, 0, 0, 0⟩ : sf_route_entry)]).length :=
  (C2_upsert_raw_identity [⟨5, 8, 0, 0, 0⟩] ⟨5, 8, 7, 7, 7⟩ (by norm_num)).2
    [] ⟨5, 8, 0, 0, 0⟩ [] rfl (by decide) (by simp)

/-- C8: `sf_route_table_upsert` fails without modifying the table when
`mask_bits > 32`, and when the table already holds 256 entries none of
which matches the entry's identity; an upsert matching an existing
identity still succeeds at full capacity, leaving the count unchanged. -/
theorem C8_upsert_error_conditions (rt : List sf_route_entry) (e : sf_route_entry) :
    (e.mask_bits > 32 → sf_route_table_upsert rt e = none) ∧
    (rt.length ≥ 256 → (∀ x ∈ rt, entry_key_eq x e = false) →
      sf_route_table_upsert rt e = none) ∧
    (e.mask_bits ≤ 32 → (∃ x ∈ rt, entry_key_eq x e = true) →
      ∃ rt', sf_route_table_upsert rt e = some rt' ∧ rt'.length = rt.length) := by
  refine ⟨?_, ?_, ?_⟩
  · intro h
    unfold sf_route_table_upsert
    rw [if_pos h]
  · intro hfull hnone
    unfold sf_route_table_upsert
    rw [upsert_replace_none rt e hnone]
    simp only [SF_ROUTE_TABLE_MAX]
    split_ifs <;> rfl
  · intro hm hex
    obtain ⟨rt', hrt'⟩ := upsert_replace_isSome rt e hex
    refine ⟨rt', ?_, upsert_replace_length rt e rt' hrt'⟩
    unfold sf_route_table_upsert
    rw [if_neg (by omega), hrt']

/-- A 256-entry table of pairwise distinct raw identities, used to
witness the capacity boundary of C8. -/
def rt_full_256 : List sf_route_entry :=
  (List.range 256).map (fun i => ⟨i, 32, 0, 0, 0⟩)

theorem rt_full_256_length : rt_full_256.length = 256 := by
  simp [rt_full_256]

theorem rt_full_256_no_match :
    ∀ x ∈ rt_full_256, entry_key_eq x ⟨999, 32, 0, 0, 0⟩ = false := by
  intro x hx
  simp only [rt_full_256, List.mem_map, List.mem_range] at hx
  obtain ⟨i, hi, rfl⟩ := hx
  simp only [entry_key_eq]
  simp only [Bool.and_eq_false_iff]
  left
  simp only [beq_eq_false_iff_ne, ne_eq]
  omega

/-- Witness for C8: a mask of 33 is rejected on an empty table; a fresh
identity is rejected on the full 256-entry table; an upsert matching an
existing identity succeeds on a table. -/
theorem C8_upsert_error_conditions_witness :
    sf_route_table_upsert [] ⟨0, 33, 0, 0, 0⟩ = none ∧
    sf_route_table_upsert rt_full_256 ⟨999, 32, 0, 0, 0⟩ = none ∧
    ∃ rt', sf_route_table_upsert [⟨1, 2, 3, 4, 5⟩] ⟨1, 2, 9, 9, 9⟩ = some rt' ∧
      rt'.length = ([(⟨1, 2, 3, 4, 5⟩ : sf_route_entry)]).length :=
  ⟨(C8_upsert_error_conditions [] ⟨0, 33, 0, 0, 0⟩).1 (by norm_num),
   (C8_upsert_error_conditions rt_full_256 ⟨999, 32, 0, 0, 0⟩).2.1
     (by rw [rt_full_256_length]) rt_full_256_no_match,
   (C8_upsert_error_conditions [⟨1, 2, 3, 4, 5⟩] ⟨1, 2, 9, 9, 9⟩).2.2 (by norm_num)
     ⟨⟨1, 2, 3, 4, 5⟩, by simp, by decide⟩⟩

/-- The lookup scan restricted to matching entries: feeding the
accumulator through the matches only. -/
def lookup_fold : List sf_route_entry → Option sf_route_entry → Option sf_route_entry
  | [], acc => acc
  | e :: rest, none => lookup_fold rest (some e)
  | e :: rest, some b => lookup_fold rest (some (if lookup_better e b then e else b))

theorem lookup_scan_eq_fold (ip : Nat) (rt : List sf_route_entry)
    (acc : Option sf_route_entry) :
    lookup_scan rt ip acc = lookup_fold (rt.filter (route_match ip)) acc := by
  induction rt generalizing acc with
  | nil => rfl
  | cons e rest ih =>
    by_cases hm : route_match ip e
    · simp only [lookup_scan, hm, if_true, List.filter_cons_of_pos hm]
      cases acc with
      | none => exact ih (some e)
      | some b =>
        by_cases hb : lookup_better e b = true
        · simp only [hb, if_true, lookup_fold]
          exact ih (some e)
        · have hb' : lookup_better e b = false := by simpa using hb
          simp only [hb', Bool.false_eq_true, if_false, lookup_fold]
          exact ih (some b)
    · have hm' : route_match ip e = false := by simpa using hm
      simp only [lookup_scan, hm', Bool.false_eq_true, if_false, List.filter_cons]
      exact ih acc

theorem lookup_better_trans (x y z : sf_route_entry)
    (h1 : lookup_better x y = true) (h2 : lookup_better y z = true) :
    lookup_better x z = true := by
  simp only [lookup_better, Bool.or_eq_true, Bool.and_eq_true, decide_eq_true_eq,
    beq_iff_eq] at *
  omega

theorem lookup_better_cross (r b e : sf_route_entry)
    (h1 : lookup_better r b = true) (h2 : lookup_better e b = false) :
    lookup_better r e = true := by
  simp only [lookup_better, Bool.or_eq_true, Bool.and_eq_true, decide_eq_true_eq,
    beq_iff_eq, Bool.or_eq_false_iff, Bool.and_eq_false_iff,
    decide_eq_false_iff_not, beq_eq_false_iff_ne, ne_eq] at *
  omega

theorem lookup_fold_spec (ms : List sf_route_entry) (b : sf_route_entry) :
    ∃ l1 l2 r, lookup_fold ms (some b) = some r ∧ b :: ms = l1 ++ r :: l2 ∧
      (∀ x ∈ l1, lookup_better r x = true) ∧
      (∀ x ∈ l2, lookup_better x r = false) := by
  induction ms generalizing b with
  | nil =>
    exact ⟨[], [], b, rfl, rfl, by simp, by simp⟩
  | cons e rest ih =>
    by_cases hbe : lookup_better e b = true
    · -- The freshly scanned entry displaces the accumulator.
      obtain ⟨l1, l2, r, hfold, hdecomp, hl1, hl2⟩ := ih e
      have hstep : lookup_fold (e :: rest) (some b) = lookup_fold rest (some e) := by
        simp only [lookup_fold, hbe, if_true]
      refine ⟨b :: l1, l2, r, hstep.trans hfold, ?_, ?_, hl2⟩
      · rw [List.cons_append]
        exact congrArg (b :: ·) hdecomp
      · intro x hx
        rcases List.mem_cons.mp hx with rfl | hx'
        · cases l1 with
          | nil =>
            rw [List.nil_append] at hdecomp
            injection hdecomp with h1 _
            rw [← h1]
            exact hbe
          | cons c cs =>
            rw [List.cons_append] at hdecomp
            injection hdecomp with h1 _
            have hre : lookup_better r e = true := by
              rw [h1]
              exact hl1 c (by simp)
            exact lookup_better_trans r e x hre hbe
        · exact hl1 x hx'
    · -- The accumulator survives this entry.
      have hbe' : lookup_better e b = false := by simpa using hbe
      obtain ⟨l1, l2, r, hfold, hdecomp, hl1, hl2⟩ := ih b
      have hstep : lookup_fold (e :: rest) (some b) = lookup_fold rest (some b) := by
        simp only [lookup_fold, hbe', Bool.false_eq_true, if_false]
      cases l1 with
      | nil =>
        rw [List.nil_append] at hdecomp
        injection hdecomp with h1 h2
        refine ⟨[], e :: rest, r, hstep.trans hfold, by rw [← h1]; rfl, by simp, ?_⟩
        intro x hx
        rcases List.mem_cons.mp hx with rfl | hx'
        · rw [← h1]
          exact hbe'
        · exact hl2 x (h2 ▸ hx')
      | cons c cs =>
        rw [List.cons_append] at hdecomp
        injection hdecomp with h1 h2
        have hrb : lookup_better r b = true := by
          rw [h1]
          exact hl1 c (by simp)
        refine ⟨b :: e :: cs, l2, r, hstep.trans hfold, ?_, ?_, hl2⟩
        · rw [h2]
          simp
        · intro x hx
          rcases List.mem_cons.mp hx with rfl | hx'
          · exact hrb
          · rcases List.mem_cons.mp hx' with rfl | hx''
            · exact lookup_better_cross r b x hrb hbe'
            · exact hl1 x (by simp [hx''])

/-- C4: `sf_route_table_lookup` returns `NotFound` exactly when no entry
matches (an entry matches iff `(ip & M) == (prefix & M)` with
`M = mask_from_bits(mask_bits)` byteswapped to network order, the
`route_match` predicate); and a returned entry is a matching entry that
is strictly better (larger `mask_bits`, or equal `mask_bits` and smaller
`metric`) than every match before it in scan order, while no later match
is strictly better than it — the largest-mask, then smallest-metric,
then earliest-position winner. -/
theorem C4_lookup_lpm_correctness (rt : List sf_route_entry) (ip_be : Nat) :
    (sf_route_table_lookup rt ip_be = none ↔
      rt.filter (route_match ip_be) = []) ∧
    (∀ b, sf_route_table_lookup rt ip_be = some b →
      ∃ l1 l2, rt.filter (route_match ip_be) = l1 ++ b :: l2 ∧
        (∀ x ∈ l1, lookup_better b x = true) ∧
        (∀ x ∈ l2, lookup_better x b = false)) := by
  unfold sf_route_table_lookup
  rw [lookup_scan_eq_fold]
  constructor
  · constructor
    · intro hnone
      cases hms : rt.filter (route_match ip_be) with
      | nil => rfl
      | cons m ms =>
        rw [hms] at hnone
        obtain ⟨l1, l2, r, hfold, _, _, _⟩ := lookup_fold_spec ms m
        rw [show lookup_fold (m :: ms) none = lookup_fold ms (some m) from rfl,
          hfold] at hnone
        exact absurd hnone (by simp)
    · intro hms
      rw [hms]
      rfl
  · intro b hb
    cases hms : rt.filter (route_match ip_be) with
    | nil =>
      rw [hms] at hb
      exact absurd hb (by simp [lookup_fold])
    | cons m ms =>
      rw [hms] at hb
      rw [show lookup_fold (m :: ms) none = lookup_fold ms (some m) from rfl] at hb
      obtain ⟨l1, l2, r, hfold, hdecomp, hl1, hl2⟩ := lookup_fold_spec ms m
      rw [hfold] at hb
      have hrb : r = b := by
        injection hb
      subst hrb
      exact ⟨l1, l2, hdecomp, hl1, hl2⟩

/-- Witness for C4 at the self-test scenario: table `10.0.0.0/8 metric 10`
then `10.1.0.0/16 metric 5`, looked up at `10.1.2.3` — the `/16` entry
wins. -/
theorem C4_lookup_lpm_correctness_witness :
    ∃ l1 l2,
      ([⟨10, 8, 10, 10 + 1 * 2^24, 0⟩, ⟨10 + 1 * 2^8, 16, 5, 10 + 1 * 2^8 + 1 * 2^24, 0⟩] :
        List sf_route_entry).filter (route_match (10 + 1 * 2^8 + 2 * 2^16 + 3 * 2^24)) =
        l1 ++ (⟨10 + 1 * 2^8, 16, 5, 10 + 1 * 2^8 + 1 * 2^24, 0⟩ : sf_route_entry) :: l2 ∧
      (∀ x ∈ l1, lookup_better ⟨10 + 1 * 2^8, 16, 5, 10 + 1 * 2^8 + 1 * 2^24, 0⟩ x = true) ∧
      (∀ x ∈ l2, lookup_better x ⟨10 + 1 * 2^8, 16, 5, 10 + 1 * 2^8 + 1 * 2^24, 0⟩ = false) :=
  (C4_lookup_lpm_correctness

      [⟨10, 8, 10, 10 + 1 * 2^24, 0⟩, ⟨10 + 1 * 2^8, 16, 5, 10 + 1 * 2^8 + 1 * 2^24, 0⟩]
      (10 + 1 * 2^8 + 2 * 2^16 + 3 * 2^24)).2
    ⟨10 + 1 * 2^8, 16, 5, 10 + 1 * 2^8 + 1 * 2^24, 0⟩ (by decide)

/-- C7: a `ROUTE_LOOKUP` (type 9) request with at least 4 payload bytes is
answered with `ROUTE_REPLY` (type 10) whose 8-byte payload is
`mask_bits` u8, a zero byte, `metric` big-endian u16 and `next_hop` in
network order, taken from the lookup's best entry — or
`mask_bits=0, metric=0xFFFF, next_hop=0` when the lookup finds no match;
with fewer than 4 payload bytes the reply is an `ERROR` (type 255) frame
carrying the UTF-8 string `"bad payload"`. -/
theorem C7_route_lookup_dispatch (g : g_stats_t) (uptime_ms last_us avg_us now_ms32 : Nat)
    (rt : List sf_route_entry) (payload : List Nat) :
    (4 ≤ payload.length →
      handle_frame_out g uptime_ms last_us avg_us now_ms32 rt SF_MSG_ROUTE_LOOKUP payload =
        ((SF_MSG_ROUTE_REPLY,
          route_reply_payload (sf_route_table_lookup rt (le32_at payload))), rt, g)) ∧
    (payload.length < 4 →
      handle_frame_out g uptime_ms last_us avg_us now_ms32 rt SF_MSG_ROUTE_LOOKUP payload =
        ((SF_MSG_ERROR, str_bytes "bad payload"), rt, g)) ∧
    route_reply_payload none = [0, 0, 0xFF, 0xFF, 0, 0, 0, 0] ∧
    (∀ best, route_reply_payload (some best) =
      [best.mask_bits % 256, 0] ++ be16 (best.metric % 2^16) ++
        le32_bytes (best.next_hop_be % 2^32) ∧
      (route_reply_payload (some best)).length = 8) := by
  refine ⟨?_, ?_, by decide, ?_⟩
  · intro h4
    simp only [handle_frame_out, SF_MSG_ROUTE_LOOKUP, SF_MSG_PING, SF_MSG_ECHO,
      SF_MSG_GET_STATS, SF_MSG_ROUTE_UPDATE]
    norm_num
    intro hlt
    omega
  · intro hlt
    simp only [handle_frame_out, SF_MSG_ROUTE_LOOKUP, SF_MSG_PING, SF_MSG_ECHO,
      SF_MSG_GET_STATS, SF_MSG_ROUTE_UPDATE]
    norm_num
    omega
  · intro best
    constructor
    · rfl
    · simp [route_reply_payload, be16, le32_bytes]

/-- Witness for C7: the self-test table looked up at `10.1.2.3`, and a
2-byte payload. -/
theorem C7_route_lookup_dispatch_witness :
    handle_frame_out ⟨0, 0, 0⟩ 0 0 0 0
        [⟨10, 8, 10, 10 + 1 * 2^24, 0⟩] SF_MSG_ROUTE_LOOKUP [10, 1, 2, 3] =
      ((SF_MSG_ROUTE_REPLY,
        route_reply_payload (sf_route_table_lookup [⟨10, 8, 10, 10 + 1 * 2^24, 0⟩]
          (le32_at [10, 1, 2, 3]))), [⟨10, 8, 10, 10 + 1 * 2^24, 0⟩], ⟨0, 0, 0⟩) ∧
    handle_frame_out ⟨0, 0, 0⟩ 0 0 0 0
        [⟨10, 8, 10, 10 + 1 * 2^24, 0⟩] SF_MSG_ROUTE_LOOKUP [10, 1] =
      ((SF_MSG_ERROR, str_bytes "bad payload"), [⟨10, 8, 10, 10 + 1 * 2^24, 0⟩], ⟨0, 0, 0⟩) :=
  ⟨(C7_route_lookup_dispatch ⟨0, 0, 0⟩ 0 0 0 0 [⟨10, 8, 10, 10 + 1 * 2^24, 0⟩]
      [10, 1, 2, 3]).1 (by norm_num),
   (C7_route_lookup_dispatch ⟨0, 0, 0⟩ 0 0 0 0 [⟨10, 8, 10, 10 + 1 * 2^24, 0⟩]
      [10, 1]).2.1 (by norm_num)⟩

/-- C3 evaluated at a concrete failing input: a connection in the
draining state (`tx_len = 24 ≠ 0`, reply not yet sent) receives one
complete, valid, empty-payload `PING` frame. The inner decode loop of
`handle_readable` runs with no `tx_len == 0` guard, consumes the frame,
dispatches it, `queue_response` fails because a reply is still pending,
and the connection is closed — instead of the frame's bytes merely
accumulating in the receive buffer as the backpressure claim requires.
`bad_frames` and `total_requests` stay 0: the close is the dispatch
failure path. -/
theorem C3_backpressure_violation :
    (⟨[], 24, 0⟩ : sf_conn).tx_len ≠ 0 ∧
    handle_readable
        [RecvEv.data [0x53, 0x46, 0x4C, 0x57, 1, 1, 0, 0, 0, 0, 0, 0,
          0, 0, 0, 0, 0, 0, 0, 0]]
        ⟨0, 0, 0⟩ 0 0 0 0 ⟨[], 24, 0⟩ [] =
      some (none, [], ⟨0, 0, 0⟩) ∧
    handle_readable
        [RecvEv.data [0x53, 0x46, 0x4C, 0x57, 1, 1, 0, 0, 0, 0, 0, 0,
          0, 0, 0, 0, 0, 0, 0, 0]]
        ⟨0, 0, 0⟩ 0 0 0 0 ⟨[], 24, 0⟩ [] ≠
      some (some ⟨[0x53, 0x46, 0x4C, 0x57, 1, 1, 0, 0, 0, 0, 0, 0,
        0, 0, 0, 0, 0, 0, 0, 0], 24, 0⟩, [], ⟨0, 0, 0⟩) :=
  ⟨by norm_num, by decide, by decide⟩

end SentryFlow
